import Mathlib

/-!
Verification of the StudyBuddy content lifecycle and review-scheduling engine
(src/app.js) against its natural-language specification.

The definitions below are a shallow embedding of the JavaScript source:
pure functions become Lean functions, JavaScript numbers that hold exact
fractional values (SRS ease factors) become rationals, dates become integer
day numbers passed in explicitly (the source reads the wall clock via
`_today()` / `_addDays(n)`), and the mutable slot records become explicit
state-passing over structures.  JavaScript `undefined`/`null`-able fields
become `Option` values and the `x || default` idiom is embedded by helpers
that treat the empty string and `none` as falsy, as JavaScript does.
-/

namespace StudyBuddy

/-- JavaScript whitespace test used by `trim`, `\s` and friends (restricted
to the ASCII whitespace the app's inputs use). -/
def jsWs (c : Char) : Bool := c.isWhitespace

/-- Trim leading and trailing whitespace from a character list. -/
def trimChars (l : List Char) : List Char :=
  ((l.dropWhile jsWs).reverse.dropWhile jsWs).reverse

/-- JavaScript `String.prototype.trim` over the underlying characters
(kept as a list computation so concrete instances reduce). -/
def jsTrim (s : String) : String :=
  String.mk (trimChars s.data)

/-- Embedding of the JavaScript idiom `s || d` for a possibly-absent string:
`none` (undefined/null) and the empty string are falsy and select `d`. -/
def jsOrStr (o : Option String) (d : String) : String :=
  match o with
  | none => d
  | some s => if s = "" then d else s

/-- Embedding of JavaScript `Array.prototype.findIndex`: index of the first
element satisfying the test, `-1` when there is none. -/
def jsFindIndex (p : α → Bool) (l : List α) : ℤ :=
  match l.findIdx? p with
  | some i => (i : ℤ)
  | none => -1

/-! ## SRS scheduler (src/app.js `_gradeFlashcard`, `openFlashcardsStudy`) -/

/-- One flashcard, as stored in a flashcards slot's `content.cards`
(src/app.js `parseContentResponse`, flashcards branch). -/
structure Card where
  id : String
  front : String
  back : String
  tags : List String
  citation_ids : List String
deriving DecidableEq, Repr

/-- Per-card SRS state `{ease, reps, interval, due, lastGrade}`
(src/app.js `_gradeFlashcard`).  `due` is a day number; the source stores a
`YYYY-MM-DD` string whose comparisons coincide with day-number order. -/
structure CardState where
  ease : ℚ
  reps : ℕ
  interval : ℤ
  due : Option ℤ
  lastGrade : Option ℕ
deriving DecidableEq, Repr

/-- Default state on first encounter:
`{ ease: 2.5, reps: 0, interval: 0, due: this._today(), lastGrade: null }`. -/
def freshCardState (today : ℤ) : CardState :=
  { ease := 5/2, reps := 0, interval := 0, due := some today, lastGrade := none }

/-- Embedding of the SM-2-like update in `_gradeFlashcard` (src/app.js
lines 1417-1431): the `q < 3` branch resets the card, the pass branch
computes the new interval from the old `reps`, increments `reps`, applies
the ease update `max(1.3, ease + (0.1 - (5-q)*(0.08 + (5-q)*0.02)))` and
sets `due = today + interval`.  `lastGrade` is recorded in both branches. -/
def gradeCard (st : CardState) (q : ℕ) (today : ℤ) : CardState :=
  if q < 3 then
    { st with reps := 0, interval := 0, due := some today, lastGrade := some q }
  else
    let interval : ℤ :=
      if st.reps = 0 then 1
      else if st.reps = 1 then 6
      else round ((st.interval : ℚ) * st.ease)
    let ease : ℚ :=
      max (13/10) (st.ease + (1/10 - ((5 : ℚ) - q) * (8/100 + ((5 : ℚ) - q) * (2/100))))
    { ease := ease, reps := st.reps + 1, interval := interval,
      due := some (today + interval), lastGrade := some q }

/-- Lookup in the slot's `srs.cards` object, keyed by card id. -/
def srsLookup (srs : List (String × CardState)) (id : String) : Option CardState :=
  (srs.find? (fun p => p.1 = id)).map (fun p => p.2)

/-- Embedding of the assignment `srsRef[card.id] = st` on the `srs.cards`
object: replace the binding when the key is present, append it otherwise. -/
def srsSet : List (String × CardState) → String → CardState → List (String × CardState)
  | [], id, st => [(id, st)]
  | (k, v) :: rest, id, st =>
      if k = id then (k, st) :: rest else (k, v) :: srsSet rest id st

/-- The in-session flashcard study state `this._flash`
(src/app.js `openFlashcardsStudy`). -/
structure FlashSession where
  deck : List Card
  index : ℕ
  srs : List (String × CardState)
  seen : ℕ
  correct : ℕ
  total : ℕ
deriving DecidableEq, Repr

/-- The due test from `openFlashcardsStudy` (src/app.js lines 1341-1345):
a card is due when it has no SRS state, or no due date, or its due date is
at or before today (`!st.due || st.due <= today`). -/
def isDueCard (srs : List (String × CardState)) (today : ℤ) (c : Card) : Bool :=
  match srsLookup srs c.id with
  | none => true
  | some st =>
      match st.due with
      | none => true
      | some d => d ≤ today

/-- Session deck construction (src/app.js lines 1347-1349):
`due = cards.filter(isDue); later = cards.filter(c => !isDue(c));
deck = [...due, ...later]`. -/
def buildDeck (cards : List Card) (srs : List (String × CardState)) (today : ℤ) : List Card :=
  cards.filter (isDueCard srs today) ++ cards.filter (fun c => ! isDueCard srs today c)

/-- Embedding of the state mutation performed by `_gradeFlashcard(quality)`
(src/app.js lines 1409-1447), up to but not including the UI rendering and
the subsequent `_nextFlashcard()` navigation: update the card's SRS state,
and on `quality < 3` splice a repeat of the card into the current deck at
`min(index + 2, deck.length)`; otherwise count the card as correct.
The source reads `deck[index]`; a session always has `index < deck.length`,
and the out-of-range case is modelled as a no-op. -/
def gradeFlashStep (fl : FlashSession) (q : ℕ) (today : ℤ) : FlashSession :=
  match fl.deck.get? fl.index with
  | none => fl
  | some card =>
      let st := (srsLookup fl.srs card.id).getD (freshCardState today)
      let st' := gradeCard st q today
      let srs' := srsSet fl.srs card.id st'
      if q < 3 then
        let insertPos := min (fl.index + 2) fl.deck.length
        let deck' := fl.deck.insertIdx insertPos card
        { fl with srs := srs', deck := deck', total := deck'.length,
                  seen := max fl.seen (fl.index + 1) }
      else
        { fl with srs := srs', correct := fl.correct + 1,
                  seen := max fl.seen (fl.index + 1) }

/-! ## Quiz content parsing (src/app.js `parseContentResponse`, quiz branch) -/

/-- The id the parser stores: `item.id || index + 1` keeps a truthy string
id and falls back to the 1-based item number. -/
inductive JsId where
  | str (s : String)
  | num (n : ℕ)
deriving DecidableEq, Repr

/-- The id fallback `item.id || index + 1` (a `none` or empty id is falsy). -/
def idOr (o : Option String) (n : ℕ) : JsId :=
  match o with
  | none => .num n
  | some s => if s = "" then .num n else .str s

/-- A quiz option as it appears in a stored question: the `quiz_mcq_v1`
parser stores plain option texts, while raw payload items carry
`{text, feedback, isCorrect}` records; `loadQuizView` distinguishes the two
shapes by probing `options[0]?.text`. -/
inductive QOption where
  | plain (s : String)
  | record (text : String) (feedback : Option String) (isCorrect : Bool)
deriving DecidableEq, Repr

/-- A stored quiz question, as produced by `parseContentResponse` and
consumed by `loadQuizView`.  `correctAnswer` is `null` (`none`) when no
option had `isCorrect === true`; `feedback` is the index-keyed feedback
object, represented positionally. -/
structure Question where
  id : JsId
  text : String
  qtype : String
  difficulty : String
  options : List QOption
  correctAnswer : Option ℤ
  feedback : List String
  citation_ids : List String
deriving DecidableEq, Repr

/-- An option record of a raw `quiz_mcq_v1` item: `{text, feedback, isCorrect}`. -/
structure RawOption where
  text : String
  feedback : Option String
  isCorrect : Option Bool
deriving DecidableEq, Repr

/-- A raw `quiz_mcq_v1` item `{id, stem, options, difficulty, citation_ids}`
(the parser also accepts a legacy `text` field for the stem). -/
structure RawItem where
  id : Option String
  stem : Option String
  text : Option String
  options : Option (List RawOption)
  difficulty : Option String
  citation_ids : Option (List String)
deriving DecidableEq, Repr

/-- A raw quiz payload as extracted from the pasted JSON: the parser accepts
it when `schema_version === 'quiz_mcq_v1'` or `items` is an array. -/
structure RawQuizPayload where
  schema_version : Option String
  items : Option (List RawItem)
deriving DecidableEq, Repr

/-- The stored quiz content `{questions, totalQuestions, schema_version}`. -/
structure QuizContent where
  questions : List Question
  totalQuestions : ℕ
  schema_version : String
deriving DecidableEq, Repr

/-- Per-item mapping of the quiz branch of `parseContentResponse`
(src/app.js lines 968-982): resolve the correct index as the position of
the first option with `isCorrect === true` (`null` when there is none),
flatten option records to their texts, and collect per-index feedback. -/
def parseQuizItem (index : ℕ) (item : RawItem) : Question :=
  let options := item.options.getD []
  let correctIdx := jsFindIndex (fun o => o.isCorrect = some true) options
  { id := idOr item.id (index + 1)
    text := jsOrStr item.stem (jsOrStr item.text "")
    qtype := "multiple_choice"
    difficulty := jsOrStr item.difficulty "medium"
    options := options.map (fun o => QOption.plain o.text)
    correctAnswer := if 0 ≤ correctIdx then some correctIdx else none
    feedback := options.map (fun o => o.feedback.getD "")
    citation_ids := item.citation_ids.getD [] }

/-- The survival filter `q => q.options?.length === 4 && q.correctAnswer !== null`
(src/app.js line 983). -/
def surviveQ (q : Question) : Bool :=
  q.options.length = 4 && q.correctAnswer ≠ none

/-- The `questions` intermediate of the quiz branch (src/app.js lines
968-983): map the items in order, then keep the survivors. -/
def parsedQuizQuestions (p : RawQuizPayload) : List Question :=
  ((p.items.getD []).enum.map (fun iv => parseQuizItem iv.1 iv.2)).filter surviveQ

/-- The quiz branch of `parseContentResponse` (src/app.js lines 966-988):
accept a payload with `schema_version === 'quiz_mcq_v1'` or an `items`
array, map and filter its items, and report a parse error when nothing
survives (or when the payload is not quiz-shaped JSON). -/
def parseContentQuiz (maybeJson : Option RawQuizPayload) : Except String QuizContent :=
  match maybeJson with
  | none => .error "Quiz must be valid JSON (quiz_mcq_v1). Please paste only the JSON code block."
  | some p =>
      if p.schema_version = some "quiz_mcq_v1" ∨ p.items.isSome then
        if (parsedQuizQuestions p).length = 0 then
          .error "Quiz JSON parsed but no valid items found. Ensure 4 options with one isCorrect=true and feedback."
        else
          .ok { questions := parsedQuizQuestions p,
                totalQuestions := (parsedQuizQuestions p).length,
                schema_version := "quiz_mcq_v1" }
      else
        .error "Quiz must be valid JSON (quiz_mcq_v1). Please paste only the JSON code block."

/-! ## Quiz session question derivation (src/app.js `loadQuizView`) -/

/-- The test `o?.isCorrect === true` on a stored option: plain string options have no
`isCorrect` field. -/
def optIsCorrectTrue (o : QOption) : Bool :=
  match o with
  | .plain _ => false
  | .record _ _ ic => ic

/-- Truthiness of `o.isCorrect`, as used by `findIndex(o => o.isCorrect)` in
the normalization branch of `loadQuizView`. -/
def optIsCorrect (o : QOption) : Bool :=
  match o with
  | .plain _ => false
  | .record _ _ ic => ic

/-- The field `o.text` of a stored option (`undefined` on a plain string option). -/
def optText (o : QOption) : Option String :=
  match o with
  | .plain _ => none
  | .record t _ _ => some t

/-- The fallback `o.feedback || ''` of a stored option. -/
def optFeedback (o : QOption) : String :=
  match o with
  | .plain _ => ""
  | .record _ fb _ => fb.getD ""

/-- The in-session question re-derivation of `loadQuizView`
(src/app.js lines 1549-1569): keep stored questions with 4 options and a
resolved correct answer (a numeric `correctAnswer` or some `isCorrect`
option), then normalize items whose options are `{text, ...}` records;
already-normalized questions (plain string options) pass through as-is.
The record branch exists for legacy stored data; there the source reads
`q.stem || q.text || ''` and `q.id || ''`, which this representation folds
into its single `text` field and `id` (the branch is unreachable for
content produced by `parseContentQuiz`, as proved below). -/
def loadQuizQuestions (content : QuizContent) : List Question :=
  (content.questions.filter (fun q =>
      q.options.length = 4 &&
        (q.correctAnswer.isSome || q.options.any optIsCorrectTrue))).map
    (fun q =>
      match q.options.head? with
      | some (.record _ _ _) =>
          { q with
            text := jsOrStr q.text "",
            options := q.options.map (fun o => QOption.plain ((optText o).getD "")),
            correctAnswer := some (jsFindIndex optIsCorrect q.options),
            feedback := q.options.map optFeedback }
      | _ => q)

/-! ## Reading-content branch of `parseContentResponse` (src/app.js lines 990-1000) -/

/-- A JSON value, as returned by `extractJsonFromText` (the fenced-block
extraction plus `JSON.parse` is host machinery; its result is passed in as
a parameter below). -/
inductive JVal where
  | null
  | bool (b : Bool)
  | num (q : ℚ)
  | str (s : String)
  | arr (xs : List JVal)
  | obj (fields : List (String × JVal))

/-- JavaScript truthiness of a JSON value: `null`, `false`, `0` and `""`
are falsy; arrays and objects are always truthy. -/
def jsTruthy (v : JVal) : Bool :=
  match v with
  | .null => false
  | .bool b => b
  | .num q => q ≠ 0
  | .str s => s ≠ ""
  | .arr _ => true
  | .obj _ => true

/-- The test `if (maybeJson)` on the extraction result: `null` (no JSON found) and a
falsy parsed value both fail the test. -/
def jsTruthyOpt (o : Option JVal) : Bool :=
  match o with
  | none => false
  | some v => jsTruthy v

/-- Position classes of the `/^#+\s/m` scan: at a line start, inside a
line, or inside a run of `#` that began at a line start. -/
inductive ScanMode where
  | lineStart
  | midLine
  | hashRun
deriving DecidableEq, Repr

/-- One left-to-right pass implementing the multiline regex test
`/^#+\s/m.test(md)`: at each line start (string start or just after a
newline) a run of one or more `#` followed by a whitespace character
(which includes `\n`) is a match. -/
def headingScan (mode : ScanMode) : List Char → Bool
  | [] => false
  | c :: rest =>
      match mode with
      | .hashRun =>
          if c = '#' then headingScan .hashRun rest
          else if jsWs c then true
          else headingScan (if c = '\n' then .lineStart else .midLine) rest
      | .lineStart =>
          if c = '#' then headingScan .hashRun rest
          else headingScan (if c = '\n' then .lineStart else .midLine) rest
      | .midLine =>
          headingScan (if c = '\n' then .lineStart else .midLine) rest

/-- The test `/^#+\s/m.test(md)`: the markdown has a heading line. -/
def hasHeading (md : String) : Bool :=
  headingScan .lineStart md.data

/-- The stored reading payload `{schema_version: 'md_v1', markdown}`. -/
structure MdContent where
  schema_version : String
  markdown : String
deriving DecidableEq, Repr

/-- The reading branch of `parseContentResponse` (src/app.js lines 990-1000),
taken for the types summary, explainer, practice and review: reject a truthy
JSON extraction, an input that is empty after trimming, and an input with no
heading line, and otherwise wrap the trimmed markdown as `md_v1`.
`maybeJson` is the result of `extractJsonFromText(response)`. -/
def parseContentReading (maybeJson : Option JVal) (response : String) : Except String MdContent :=
  if jsTruthyOpt maybeJson then
    .error "Reading content must be plain Markdown (no JSON). Please regenerate and paste Markdown only."
  else
    let md := jsTrim response
    if md = "" then .error "Empty content. Paste Markdown only."
    else if ! hasHeading md then
      .error "Markdown must include headings (##, ###). Please format with headings and sections."
    else .ok { schema_version := "md_v1", markdown := md }

/-! ## Content slots (src/app.js `createEmptyContentSlots`, `saveContent`) -/

/-- Slot status: `'empty'` or `'filled'`. -/
inductive SlotStatus where
  | empty
  | filled
deriving DecidableEq, Repr

/-- The six content types. -/
inductive CType where
  | summary
  | flashcards
  | quiz
  | explainer
  | practice
  | review
deriving DecidableEq, Repr

/-- A quiz attempt record (src/app.js `finishQuiz`):
`{score, total, percentage, timeSpent, date, answers}`. -/
structure Attempt where
  score : ℕ
  total : ℕ
  percentage : ℤ
  timeSpent : ℤ
  date : String
  answers : List (Option ℤ)
deriving DecidableEq, Repr

/-- A stored content payload (quiz JSON, flashcards JSON, or markdown). -/
inductive Payload where
  | quiz (c : QuizContent)
  | flashcards (cards : List Card) (totalCards : ℕ)
  | md (c : MdContent)
deriving DecidableEq, Repr

/-- A topic's content slot.  The JavaScript record carries
`status/content/rawResponse/lastUpdated/completed` on every slot; quiz
slots additionally carry `attempts`/`bestScore` and flashcard slots an
`srs` map.  Fields a slot may lack are `Option`s (`none` = absent). -/
structure ContentSlot where
  status : SlotStatus
  content : Option Payload
  rawResponse : Option String
  lastUpdated : Option String
  completed : Bool
  attempts : Option (List Attempt)
  bestScore : Option ℤ
  srs : Option (List (String × CardState))
deriving DecidableEq, Repr

/-- The fixed six-key slot mapping of a topic (`Object.entries` on it
enumerates the keys in this insertion order). -/
structure ContentSlots where
  summary : ContentSlot
  flashcards : ContentSlot
  quiz : ContentSlot
  explainer : ContentSlot
  practice : ContentSlot
  review : ContentSlot
deriving DecidableEq, Repr

/-- An empty plain slot `{status: 'empty', content: null, lastUpdated: null,
completed: false}`. -/
def emptyPlainSlot : ContentSlot :=
  { status := .empty, content := none, rawResponse := none, lastUpdated := none,
    completed := false, attempts := none, bestScore := none, srs := none }

/-- Embedding of `createEmptyContentSlots` (src/app.js lines 752-761): six empty slots;
the flashcards slot starts with `srs: {cards: {}}`, the quiz slot with
`attempts: []` and `bestScore: 0`. -/
def createEmptyContentSlots : ContentSlots :=
  { summary := emptyPlainSlot
    flashcards := { emptyPlainSlot with srs := some [] }
    quiz := { emptyPlainSlot with attempts := some [], bestScore := some 0 }
    explainer := emptyPlainSlot
    practice := emptyPlainSlot
    review := emptyPlainSlot }

/-- The slot update performed by `saveContent` (src/app.js lines 1039-1062):
spread the previous slot, overwrite `status/content/rawResponse/lastUpdated`,
keep `completed`, and for quiz slots re-assert the `attempts` array and a
finite `bestScore` (defaulting to `[]`/`0`), for flashcard slots the `srs`
map (defaulting to `{cards: {}}`). -/
def saveContentSlot (prevSlot : ContentSlot) (parsed : Payload)
    (response now : String) (type : CType) : ContentSlot :=
  let base : ContentSlot :=
    { prevSlot with
      status := .filled
      content := some parsed
      rawResponse := some response
      lastUpdated := some now
      completed := prevSlot.completed }
  match type with
  | .quiz =>
      { base with attempts := some (prevSlot.attempts.getD [])
                  bestScore := some (prevSlot.bestScore.getD 0) }
  | .flashcards =>
      { base with srs := some (prevSlot.srs.getD []) }
  | _ => base

/-! ## Quiz engine: `finishQuiz` (src/app.js lines 1695-1733) -/

/-- An in-session quiz question: `loadQuizView` guarantees a numeric
`correctAnswer`; only that field matters for scoring. -/
structure SQuestion where
  text : String
  options : List String
  correctAnswer : ℤ
deriving DecidableEq, Repr

/-- The mastery threshold `this.quizMasteryThreshold = 70`. -/
def quizMasteryThreshold : ℤ := 70

/-- The score loop of `finishQuiz`: count the answers that are non-null and
equal the matching question's `correctAnswer`. -/
def quizScore (questions : List SQuestion) (answers : List (Option ℤ)) : ℕ :=
  (answers.zip questions).countP (fun p => p.1 ≠ none && p.1 = some p.2.correctAnswer)

/-- The percentage `Math.round((score / total) * 100)` over the rationals. -/
def attemptPercentage (questions : List SQuestion) (answers : List (Option ℤ)) : ℤ :=
  round (((quizScore questions answers : ℚ) / (questions.length : ℚ)) * 100)

/-- The slot mutation of `finishQuiz` (src/app.js lines 1695-1733): append
the attempt, set `bestScore = max(bestScore || 0, percentage)`, and mark the
slot completed when the updated `bestScore` meets the mastery threshold
(a below-threshold attempt leaves `completed` unchanged).  A quiz session
always has at least one question; the `total = 0` division is unreachable
(the modal cannot even render an empty quiz) and is 0 in this embedding. -/
def finishQuiz (slot : ContentSlot) (questions : List SQuestion)
    (answers : List (Option ℤ)) (timeSpent : ℤ) (date : String) : ContentSlot :=
  let total := questions.length
  let score := quizScore questions answers
  let percentage := attemptPercentage questions answers
  let attempt : Attempt :=
    { score := score, total := total, percentage := percentage,
      timeSpent := timeSpent, date := date, answers := answers }
  let best := max (slot.bestScore.getD 0) percentage
  { slot with
    attempts := some (slot.attempts.getD [] ++ [attempt])
    bestScore := some best
    completed := if quizMasteryThreshold ≤ best then true else slot.completed
    lastUpdated := some date }

/-- A whole sequence of finished attempts against the same slot. -/
def finishMany (slot : ContentSlot)
    (runs : List (List SQuestion × List (Option ℤ) × ℤ × String)) : ContentSlot :=
  runs.foldl (fun s r => finishQuiz s r.1 r.2.1 r.2.2.1 r.2.2.2) slot

/-! ## Structure parser (src/app.js `parseStructureText`, `extractValue`,
`createEmptyContentSlots`) -/

/-- Drop everything up to and including the first occurrence of `pat`
(a nonempty character pattern); `none` when `pat` does not occur.
`(dropAfterFirst pat s).isSome` is `s.includes(pat)`. -/
def dropAfterFirst (pat : List Char) : List Char → Option (List Char)
  | [] => none
  | c :: cs =>
      if pat.isPrefixOf (c :: cs) then some ((c :: cs).drop pat.length)
      else dropAfterFirst pat cs

/-- Case-insensitive prefix test against an already-lowercased pattern. -/
def ciPrefix : List Char → List Char → Bool
  | [], _ => true
  | _ :: _, [] => false
  | p :: ps, c :: cs => p = c.toLower && ciPrefix ps cs

/-- Does the text continue, after optional whitespace, with `##`?
This is where the lazy capture group of `/TOPIC_START:\s*(.+?)(?:\s*##|$)/`
stops growing. -/
def wsThenHashHash (t : List Char) : Bool :=
  match t.dropWhile jsWs with
  | '#' :: '#' :: _ => true
  | _ => false

/-- The capture of `\s*(.+?)(?:\s*##|$)` on a nonempty remainder whose
leading whitespace has been dropped: grow the lazy group one character at a
time and stop as soon as the rest of the line is exhausted or continues,
after optional whitespace, with `##`. -/
def lazyCapture : List Char → List Char
  | [] => []
  | c :: rest =>
      if rest = [] ∨ wsThenHashHash rest then [c] else c :: lazyCapture rest

/-- Embedding of `line.match(/MARKER:\s*(.+?)(?:\s*##|$)/)` followed by
`match[1].trim()` (src/app.js lines 698, 713): the match fails only when
the marker is absent or sits at the very end of the line; an all-whitespace
remainder captures a single whitespace character, which trims to the empty
name (this is the backtracking outcome of the JavaScript engine). -/
def matchMarker (pat : List Char) (line : String) : Option String :=
  match dropAfterFirst pat line.data with
  | none => none
  | some rest =>
      if rest = [] then none
      else
        let r := rest.dropWhile jsWs
        some (String.mk (trimChars (lazyCapture r)))

/-- Embedding of `extractValue` (src/app.js lines 746-750): scan the case-insensitive
occurrences of `KEY:`; at the first one whose remainder is nonempty and
does not immediately start with `#`, capture the run up to the first `#`
and trim it (`KEY:\s*([^#\n]+)` with the `i` flag); otherwise `null`. -/
def extractValueAux (key : List Char) : List Char → Option String
  | [] => none
  | c :: cs =>
      if ciPrefix key (c :: cs) then
        let t := (c :: cs).drop key.length
        if t = [] ∨ t.head? = some '#' then extractValueAux key cs
        else some (String.mk (trimChars (t.takeWhile (fun d => d ≠ '#'))))
      else extractValueAux key cs

/-- The wrapper `extractValue(text, key)` with the trailing colon appended to the key
and the pattern lowercased once for the case-insensitive comparison. -/
def extractValue (text key : String) : Option String :=
  extractValueAux (key.data.map Char.toLower ++ [':']) text.data

/-- A subtopic `{id, name, concepts}`; ids are timestamp-plus-random in the
source (nondeterministic) and are modelled as the empty string. -/
structure Subtopic where
  id : String
  name : String
  concepts : List String
deriving DecidableEq, Repr

/-- A topic `{id, name, difficulty, category, subtopics, contentSlots}`. -/
structure Topic where
  id : String
  name : String
  difficulty : String
  category : String
  subtopics : List Subtopic
  contentSlots : ContentSlots
deriving DecidableEq, Repr

/-- The topic built at a `TOPIC_START:` line (src/app.js lines 700-707):
name from the marker capture, `DIFFICULTY`/`CATEGORY` extracted from the
same line with the falsy-aware defaults `'Medium'`/`'General'`. -/
def mkTopic (name : String) (line : String) : Topic :=
  { id := ""
    name := name
    difficulty := jsOrStr (extractValue line "DIFFICULTY") "Medium"
    category := jsOrStr (extractValue line "CATEGORY") "General"
    subtopics := []
    contentSlots := createEmptyContentSlots }

/-- The subtopic built at a `SUBTOPIC:` line (src/app.js lines 715-719):
`CONCEPTS` is comma-split and trimmed; a missing `CONCEPTS` annotation
gives `[]` (the optional chain hands `undefined` to `|| []`), while an
empty capture splits to `[""]`. -/
def mkSubtopic (name : String) (line : String) : Subtopic :=
  { id := ""
    name := name
    concepts :=
      match extractValue line "CONCEPTS" with
      | none => []
      | some s => (s.splitOn ",").map jsTrim }

/-- Apply `f` to the last element of a list (the open `currentTopic` is
always the most recently pushed topic). -/
def updateLast (f : Topic → Topic) : List Topic → List Topic
  | [] => []
  | [t] => [f t]
  | t :: ts => t :: updateLast f ts

/-- The character pattern of the `TOPIC_START:` marker. -/
def topicStartPat : List Char := "TOPIC_START:".data

/-- The character pattern of the `SUBTOPIC:` marker. -/
def subtopicPat : List Char := "SUBTOPIC:".data

/-- One iteration of the marker scan in `parseStructureText`
(src/app.js lines 694-722) over the accumulated `(topics, currentTopic)`
state; the open `currentTopic` is the last pushed topic, so the state keeps
only an is-open flag.  A line can both open a topic and append a subtopic. -/
def structStep (acc : List Topic × Bool) (raw : String) : List Topic × Bool :=
  let line := jsTrim raw
  let acc1 :=
    if (dropAfterFirst topicStartPat line.data).isSome then
      match matchMarker topicStartPat line with
      | some name => (acc.1 ++ [mkTopic name line], true)
      | none => acc
    else acc
  if acc1.2 && (dropAfterFirst subtopicPat line.data).isSome then
    match matchMarker subtopicPat line with
    | some sname =>
        (updateLast (fun t => { t with subtopics := t.subtopics ++ [mkSubtopic sname line] }) acc1.1,
         acc1.2)
    | none => acc1
  else acc1

/-- The fallback heading test `/^#{2,3}\s+/.test(line)` applied to the raw
(untrimmed) line: exactly two or three `#` at the start of the line,
followed by a whitespace character. -/
def isH23 (l : List Char) : Bool :=
  match l with
  | '#' :: '#' :: '#' :: c :: _ => jsWs c
  | '#' :: '#' :: c :: _ => jsWs c
  | _ => false

/-- The name extraction `line.replace(/^#+\s*/, '').trim()` on a heading line. -/
def headingName (l : List Char) : String :=
  String.mk (trimChars ((l.dropWhile (fun c => c = '#')).dropWhile jsWs))

/-- A topic created by the markdown-heading fallback (src/app.js
lines 730-737): defaults throughout. -/
def mkFallbackTopic (name : String) : Topic :=
  { id := ""
    name := name
    difficulty := "Medium"
    category := "General"
    subtopics := []
    contentSlots := createEmptyContentSlots }

/-- The heading fallback (src/app.js lines 724-741): every level-2/3
heading becomes a topic, skipping empty names and exact-name duplicates. -/
def fallbackTopics (lines : List String) : List Topic :=
  lines.foldl
    (fun ts line =>
      if isH23 line.data then
        let name := headingName line.data
        if name ≠ "" && ts.all (fun t => t.name ≠ name) then
          ts ++ [mkFallbackTopic name]
        else ts
      else ts)
    []

/-- Embedding of `parseStructureText` over the already-split lines: the marker scan, and
the heading fallback when the scan produced no topics. -/
def parseStructureLines (lines : List String) : List Topic :=
  let ts := (lines.foldl structStep ([], false)).1
  if ts = [] then fallbackTopics lines else ts

/-- Embedding of `parseStructureText(text)` (src/app.js lines 689-744). -/
def parseStructureText (text : String) : List Topic :=
  parseStructureLines (text.splitOn "\n")

/-! ## Study queue (src/app.js `loadStudyView`, lines 2189-2242) -/

/-- A course `{id, name, topics, ...}` (only the fields the study queue
reads). -/
structure Course where
  id : String
  name : String
  topics : List Topic
deriving DecidableEq, Repr

/-- Embedding of `capitalize` (src/app.js line 2277): uppercase the first character. -/
def capitalize (s : String) : String :=
  match s.data with
  | [] => ""
  | c :: rest => String.mk (c.toUpper :: rest)

/-- The display key of a content type, as used in slot labels. -/
def ctypeKey (t : CType) : String :=
  match t with
  | .summary => "summary"
  | .flashcards => "flashcards"
  | .quiz => "quiz"
  | .explainer => "explainer"
  | .practice => "practice"
  | .review => "review"

/-- The entry list `Object.entries(topic.contentSlots)` in insertion order. -/
def slotsList (cs : ContentSlots) : List (CType × ContentSlot) :=
  [(.summary, cs.summary), (.flashcards, cs.flashcards), (.quiz, cs.quiz),
   (.explainer, cs.explainer), (.practice, cs.practice), (.review, cs.review)]

/-- A study-queue item (the `go` navigation closure is a collaborator
concern and is not part of the record). -/
structure StudyItem where
  kind : String
  priority : ℕ
  label : String
deriving DecidableEq, Repr

/-- The priority-2 "create content" item pushed for an empty slot
(src/app.js lines 2198-2203). -/
def mkEmptyItem (name : String) (t : CType) : StudyItem :=
  { kind := "content", priority := 2, label := name ++ " • " ++ capitalize (ctypeKey t) }

/-- The priority-1 "review" item pushed for a filled, not-completed
flashcards slot (src/app.js lines 2207-2212). -/
def reviewItem (name : String) : StudyItem :=
  { kind := "review", priority := 1, label := name ++ " • Flashcards Review" }

/-- Is a topic's flashcards slot review-eligible
(`status === 'filled' && !completed`)? -/
def reviewEligible (topic : Topic) : Bool :=
  topic.contentSlots.flashcards.status = .filled && ! topic.contentSlots.flashcards.completed

/-- The items one topic contributes, in push order: one per empty slot (in
slot-entry order), then the flashcards review item when eligible. -/
def topicItems (topic : Topic) : List StudyItem :=
  ((slotsList topic.contentSlots).filterMap (fun ts =>
      if ts.2.status = .empty then some (mkEmptyItem topic.name ts.1) else none))
    ++ (if reviewEligible topic then [reviewItem topic.name] else [])

/-- Candidate generation of `loadStudyView` (src/app.js lines 2193-2215):
per course, per topic, the topic's items in order. -/
def buildStudyItems (courses : List Course) : List StudyItem :=
  courses.flatMap (fun course => course.topics.flatMap topicItems)

/-- The sort key `(a, b) => a.priority - b.priority || a.label.localeCompare(b.label)`:
priority ascending, then labels ordered by the host's locale collation.
`localeCompare` is ICU collator machinery outside the program text (like
`JSON.parse`), so the label order is a parameter: `labelLe a b` embeds
`a.localeCompare(b) <= 0`.  Any ICU collation is a total preorder, which
the theorems below take as hypotheses. -/
def itemRelWith (labelLe : String → String → Prop) (a b : StudyItem) : Prop :=
  a.priority < b.priority ∨ (a.priority = b.priority ∧ labelLe a.label b.label)

instance (labelLe : String → String → Prop) [DecidableRel labelLe] :
    DecidableRel (itemRelWith labelLe) := fun a b => by
  unfold itemRelWith; infer_instance

/-- For a total label order, the item order is total. -/
theorem itemRelWith_total (labelLe : String → String → Prop)
    (htotal : ∀ a b, labelLe a b ∨ labelLe b a) :
    ∀ a b, itemRelWith labelLe a b ∨ itemRelWith labelLe b a := by
  intro a b
  rcases Nat.lt_trichotomy a.priority b.priority with h | h | h
  · exact Or.inl (Or.inl h)
  · rcases htotal a.label b.label with hl | hl
    · exact Or.inl (Or.inr ⟨h, hl⟩)
    · exact Or.inr (Or.inr ⟨h.symm, hl⟩)
  · exact Or.inr (Or.inl h)

/-- For a transitive label order, the item order is transitive. -/
theorem itemRelWith_trans (labelLe : String → String → Prop)
    (htrans : ∀ a b c, labelLe a b → labelLe b c → labelLe a c) :
    ∀ a b c, itemRelWith labelLe a b → itemRelWith labelLe b c →
      itemRelWith labelLe a c := by
  intro a b c hab hbc
  rcases hab with hab | ⟨hab, hab'⟩
  · rcases hbc with hbc | ⟨hbc, _⟩
    · exact Or.inl (hab.trans hbc)
    · exact Or.inl (hbc ▸ hab)
  · rcases hbc with hbc | ⟨hbc, hbc'⟩
    · exact Or.inl (hab ▸ hbc)
    · exact Or.inr ⟨hab.trans hbc, htrans _ _ _ hab' hbc'⟩

/-- The study view outcome: an explicit empty-queue message, or the ranked
queue (src/app.js lines 2217-2237). -/
inductive StudyResult where
  | nothingToDo
  | queue (items : List StudyItem)
deriving DecidableEq, Repr

/-- Embedding of `loadStudyView`: collect candidates, return the explicit "nothing to
do" rendering when there are none, and otherwise the stable sort by
priority then locale-collated label, truncated to the first 8 items.
`labelLe` is the label order induced by the host's `localeCompare`. -/
def loadStudyView (labelLe : String → String → Prop) [DecidableRel labelLe]
    (courses : List Course) : StudyResult :=
  if buildStudyItems courses = [] then .nothingToDo
  else .queue ((List.insertionSort (itemRelWith labelLe) (buildStudyItems courses)).take 8)

/-! ## Theorems: SRS scheduler -/

/-- Updating a card id in the `srs.cards` map and reading it back yields
the written state. -/
theorem srsLookup_srsSet (srs : List (String × CardState)) (id : String) (st : CardState) :
    srsLookup (srsSet srs id st) id = some st := by
  induction srs with
  | nil => simp [srsSet, srsLookup]
  | cons kv rest ih =>
      by_cases h : kv.1 = id
      · simp [srsSet, srsLookup, h]
      · simpa [srsSet, srsLookup, h, List.find?] using ih

/-- Closed form of the pass branch of `gradeCard` (`quality ≥ 3`). -/
theorem gradeCard_pass (st : CardState) (q : ℕ) (t : ℤ) (hq : 3 ≤ q) :
    gradeCard st q t =
      { ease := max (13/10)
          (st.ease + (1/10 - ((5 : ℚ) - q) * (8/100 + ((5 : ℚ) - q) * (2/100))))
        reps := st.reps + 1
        interval := if st.reps = 0 then 1 else if st.reps = 1 then 6
          else round ((st.interval : ℚ) * st.ease)
        due := some (t + (if st.reps = 0 then 1 else if st.reps = 1 then 6
          else round ((st.interval : ℚ) * st.ease)))
        lastGrade := some q } := by
  rw [gradeCard, if_neg (by omega)]

/-- C3: from a fresh card, three quality-4 grades produce the interval
sequence `[1, 6, round(6 · ease₂)]` (concretely `[1, 6, 15]`, the ease
staying at 2.5 under quality 4); the ease update is
`max(1.3, ease + (0.1 − (5−q)(0.08 + (5−q)·0.02)))`, which never decreases
the ease for the gradable qualities `q ∈ {4, 5}`; and every pass-branch
grade (`q ≥ 3`) increments `reps` by one and sets `due = today + interval`. -/
theorem c3_good_grades_from_fresh :
    (∀ t0 t1 t2 t3 : ℤ,
      (gradeCard (freshCardState t0) 4 t1).interval = 1
      ∧ (gradeCard (gradeCard (freshCardState t0) 4 t1) 4 t2).interval = 6
      ∧ (gradeCard (gradeCard (gradeCard (freshCardState t0) 4 t1) 4 t2) 4 t3).interval =
          round ((6 : ℚ) * (gradeCard (gradeCard (freshCardState t0) 4 t1) 4 t2).ease)
      ∧ (gradeCard (gradeCard (gradeCard (freshCardState t0) 4 t1) 4 t2) 4 t3).interval = 15)
    ∧ (∀ (st : CardState) (q : ℕ) (t : ℤ), 3 ≤ q →
        (gradeCard st q t).ease =
          max (13/10) (st.ease + (1/10 - ((5 : ℚ) - q) * (8/100 + ((5 : ℚ) - q) * (2/100)))))
    ∧ (∀ (st : CardState) (q : ℕ) (t : ℤ), 4 ≤ q → q ≤ 5 →
        st.ease ≤ (gradeCard st q t).ease)
    ∧ (∀ (st : CardState) (q : ℕ) (t : ℤ), 3 ≤ q →
        (gradeCard st q t).reps = st.reps + 1
        ∧ (gradeCard st q t).due = some (t + (gradeCard st q t).interval)) := by
  refine ⟨?_, ?_, ?_, ?_⟩
  · intro t0 t1 t2 t3
    norm_num [gradeCard, freshCardState, round_eq]
  · intro st q t hq
    rw [gradeCard_pass st q t hq]
  · intro st q t hq4 hq5
    rw [gradeCard_pass st q t (by omega)]
    have hq : q = 4 ∨ q = 5 := by omega
    rcases hq with rfl | rfl
    · refine le_trans ?_ (le_max_right _ _)
      norm_num
    · refine le_trans ?_ (le_max_right _ _)
      norm_num
  · intro st q t hq
    rw [gradeCard_pass st q t hq]
    exact ⟨rfl, rfl⟩

/-- Concrete instance of `c3_good_grades_from_fresh`: fresh card graded on
day 0, all hypotheses discharged at `q = 4`. -/
theorem c3_good_grades_from_fresh_witness :
    (3 ≤ 4 ∧ 4 ≤ 4 ∧ 4 ≤ 5)
    ∧ (gradeCard (freshCardState 0) 4 0).interval = 1
    ∧ (freshCardState 0).ease ≤ (gradeCard (freshCardState 0) 4 0).ease
    ∧ (gradeCard (freshCardState 0) 4 0).reps = (freshCardState 0).reps + 1 := by
  refine ⟨by norm_num, (c3_good_grades_from_fresh.1 0 0 0 0).1,
    c3_good_grades_from_fresh.2.2.1 (freshCardState 0) 4 0 (by norm_num) (by norm_num),
    (c3_good_grades_from_fresh.2.2.2 (freshCardState 0) 4 0 (by norm_num)).1⟩

/-- C4: an "Again" grade (`quality < 3`) resets the card's state to
`reps = 0, interval = 0, due = today`, records `lastGrade`, and splices the
card back into the session deck at `min(index + 2, deckLength)`, growing
the deck by one and leaving the repeat strictly after the current card. -/
theorem c4_again_reinserts (fl : FlashSession) (card : Card) (q : ℕ) (today : ℤ)
    (hcard : fl.deck.get? fl.index = some card) (hq : q < 3) :
    srsLookup (gradeFlashStep fl q today).srs card.id =
      some { ((srsLookup fl.srs card.id).getD (freshCardState today)) with
             reps := 0, interval := 0, due := some today, lastGrade := some q }
    ∧ (gradeFlashStep fl q today).deck =
        fl.deck.insertIdx (min (fl.index + 2) fl.deck.length) card
    ∧ (gradeFlashStep fl q today).deck.length = fl.deck.length + 1
    ∧ (gradeFlashStep fl q today).deck.get? (min (fl.index + 2) fl.deck.length) = some card
    ∧ fl.index < min (fl.index + 2) fl.deck.length := by
  have hidx : fl.index < fl.deck.length := by
    by_contra hge
    rw [List.get?_eq_getElem?, List.getElem?_eq_none (by omega)] at hcard
    exact Option.noConfusion hcard
  have hle : min (fl.index + 2) fl.deck.length ≤ fl.deck.length := min_le_right _ _
  have hstep : gradeFlashStep fl q today =
      { fl with
        srs := srsSet fl.srs card.id
          (gradeCard ((srsLookup fl.srs card.id).getD (freshCardState today)) q today)
        deck := fl.deck.insertIdx (min (fl.index + 2) fl.deck.length) card
        total := (fl.deck.insertIdx (min (fl.index + 2) fl.deck.length) card).length
        seen := max fl.seen (fl.index + 1) } := by
    rw [gradeFlashStep, hcard]
    simp only [if_pos hq]
  rw [hstep]
  refine ⟨?_, rfl, ?_, ?_, by omega⟩
  · rw [srsLookup_srsSet]
    rw [gradeCard, if_pos hq]
  · exact List.length_insertIdx _ _ hle
  · rw [List.get?_eq_getElem?,
      List.getElem?_eq_getElem (by rw [List.length_insertIdx _ _ hle]; omega),
      List.getElem_insertIdx_self _ _ _ hle]

/-- Concrete instance of `c4_again_reinserts`: a one-card session graded
"Again" on day 0. -/
theorem c4_again_reinserts_witness :
    ([⟨"c1", "f", "b", [], []⟩] : List Card).get? 0 = some ⟨"c1", "f", "b", [], []⟩
    ∧ (1 : ℕ) < 3
    ∧ (gradeFlashStep ⟨[⟨"c1", "f", "b", [], []⟩], 0, [], 0, 0, 1⟩ 1 0).deck.length = 1 + 1 := by
  refine ⟨rfl, by norm_num, ?_⟩
  exact (c4_again_reinserts ⟨[⟨"c1", "f", "b", [], []⟩], 0, [], 0, 0, 1⟩
    ⟨"c1", "f", "b", [], []⟩ 1 0 rfl (by norm_num)).2.2.1

/-- C5: the session deck is a permutation of the card list that places
every due card before every not-yet-due card while preserving the original
relative order inside each of the two partitions. -/
theorem c5_deck_partition (cards : List Card) (srs : List (String × CardState)) (today : ℤ) :
    (buildDeck cards srs today).Perm cards
    ∧ (buildDeck cards srs today).filter (isDueCard srs today) =
        cards.filter (isDueCard srs today)
    ∧ (buildDeck cards srs today).filter (fun c => ! isDueCard srs today c) =
        cards.filter (fun c => ! isDueCard srs today c)
    ∧ (buildDeck cards srs today).Pairwise
        (fun a b => isDueCard srs today b = true → isDueCard srs today a = true) := by
  refine ⟨List.filter_append_perm _ cards, ?_, ?_, ?_⟩
  · rw [buildDeck, List.filter_append, List.filter_filter, List.filter_filter]
    have h1 : (fun c => isDueCard srs today c && isDueCard srs today c) =
        fun c => isDueCard srs today c := by
      funext c; rw [Bool.and_self]
    have h2 : (fun c => isDueCard srs today c && ! isDueCard srs today c) =
        fun _ => false := by
      funext c; rw [Bool.and_not_self]
    rw [h1, h2, List.filter_false, List.append_nil]
  · rw [buildDeck, List.filter_append, List.filter_filter, List.filter_filter]
    have h1 : (fun c => ! isDueCard srs today c && isDueCard srs today c) =
        fun _ => false := by
      funext c; rw [Bool.not_and_self]
    have h2 : (fun c => ! isDueCard srs today c && ! isDueCard srs today c) =
        fun c => ! isDueCard srs today c := by
      funext c; rw [Bool.and_self]
    rw [h1, h2, List.filter_false, List.nil_append]
  · rw [buildDeck, List.pairwise_append]
    refine ⟨List.pairwise_of_forall_mem_list ?_, List.pairwise_of_forall_mem_list ?_, ?_⟩
    · intro a ha b _ _
      exact (List.mem_filter.mp ha).2
    · intro a _ b hb hdue
      have := (List.mem_filter.mp hb).2
      rw [hdue] at this
      exact absurd this (by simp)
    · intro a ha b _ _
      exact (List.mem_filter.mp ha).2

/-! ## Theorems: quiz content parsing -/

/-- The survival predicate of the claim, read off the spec: exactly 4
options and exactly one option flagged `isCorrect == true`. -/
def goodItemSpec (item : RawItem) : Bool :=
  (item.options.getD []).length = 4
    && (item.options.getD []).countP (fun o => o.isCorrect = some true) = 1

/-- The survival predicate the code implements: exactly 4 options and at
least one option flagged `isCorrect == true` (the first one resolves the
correct index). -/
def goodItemCode (item : RawItem) : Bool :=
  (item.options.getD []).length = 4
    && (item.options.getD []).any (fun o => o.isCorrect = some true)

/-- A mapped item survives the parse filter exactly when the raw item has
4 options and some option with `isCorrect === true`. -/
theorem surviveQ_parseQuizItem (i : ℕ) (item : RawItem) :
    surviveQ (parseQuizItem i item) = goodItemCode item := by
  rw [surviveQ, parseQuizItem, goodItemCode]
  simp only [List.length_map]
  rcases h : (item.options.getD []).findIdx? (fun o => o.isCorrect = some true) with _ | j
  · have hany : (item.options.getD []).any (fun o => o.isCorrect = some true) = false := by
      rw [List.findIdx?_eq_none_iff] at h
      simp only [List.any_eq_false]
      intro o ho
      simpa using h o ho
    simp [jsFindIndex, h, hany]
  · have hany : (item.options.getD []).any (fun o => o.isCorrect = some true) = true := by
      by_contra hfalse
      rw [Bool.not_eq_true, List.any_eq_false] at hfalse
      have hnone : (item.options.getD []).findIdx? (fun o => o.isCorrect = some true) = none :=
        List.findIdx?_eq_none_iff.mpr (fun x hx => by simpa using hfalse x hx)
      rw [hnone] at h
      exact Option.noConfusion h
    simp [jsFindIndex, h, hany]

/-- The raw item of the C1 counterexample: 4 options, two of them flagged
correct. -/
def c1Item : RawItem :=
  { id := none, stem := some "pick", text := none,
    options := some [⟨"a", none, some true⟩, ⟨"b", none, some true⟩,
                     ⟨"c", none, none⟩, ⟨"d", none, some false⟩],
    difficulty := none, citation_ids := none }

/-- The payload of the C1 counterexample. -/
def c1Payload : RawQuizPayload :=
  { schema_version := some "quiz_mcq_v1", items := some [c1Item] }

/-- C1 counterexample: an item with two `isCorrect == true` options (so it
does not have "exactly one") nevertheless survives — the parse succeeds
with `questions.length = 1`, refuting the claimed "if and only if". -/
theorem c1_counterexample :
    goodItemSpec c1Item = false
    ∧ parseContentQuiz (some c1Payload) =
        .ok { questions := [{ id := .num 1, text := "pick", qtype := "multiple_choice",
                              difficulty := "medium",
                              options := [.plain "a", .plain "b", .plain "c", .plain "d"],
                              correctAnswer := some 0, feedback := ["", "", "", ""],
                              citation_ids := [] }],
              totalQuestions := 1, schema_version := "quiz_mcq_v1" } := by
  constructor
  · rfl
  · rfl

/-- C1 (amended): for every accepted quiz payload, an item survives
filtering iff it has exactly 4 options and at least one `isCorrect == true`
option (the first such option resolving the correct index); the number of
surviving items is the returned `questions.length`; and when no item
survives the parse reports an error instead of an empty quiz. -/
theorem c1_quiz_item_filter (p : RawQuizPayload)
    (hacc : p.schema_version = some "quiz_mcq_v1" ∨ p.items.isSome) :
    (∀ i item, surviveQ (parseQuizItem i item) = goodItemCode item)
    ∧ (∀ c, parseContentQuiz (some p) = .ok c →
        c.questions.length = (p.items.getD []).countP goodItemCode)
    ∧ ((p.items.getD []).countP goodItemCode = 0 →
        parseContentQuiz (some p) =
          .error "Quiz JSON parsed but no valid items found. Ensure 4 options with one isCorrect=true and feedback.") := by
  have hcount : (parsedQuizQuestions p).length = (p.items.getD []).countP goodItemCode := by
    rw [parsedQuizQuestions, ← List.countP_eq_length_filter, List.countP_map]
    have : (surviveQ ∘ fun iv : ℕ × RawItem => parseQuizItem iv.1 iv.2) =
        (goodItemCode ∘ Prod.snd) := by
      funext iv
      exact surviveQ_parseQuizItem iv.1 iv.2
    rw [this, ← List.countP_map, List.enum_map_snd]
  refine ⟨fun i item => surviveQ_parseQuizItem i item, ?_, ?_⟩
  · intro c hc
    rw [parseContentQuiz, if_pos hacc] at hc
    by_cases hzero : (parsedQuizQuestions p).length = 0
    · rw [if_pos hzero] at hc
      exact absurd hc (by simp)
    · rw [if_neg hzero] at hc
      have hc' := Except.ok.inj hc
      rw [← hc', ← hcount]
  · intro hzero
    rw [parseContentQuiz, if_pos hacc]
    rw [if_pos (hcount.trans hzero)]

/-- Concrete instance of `c1_quiz_item_filter` at a valid single-item
payload (all hypotheses discharged). -/
theorem c1_quiz_item_filter_witness :
    (c1Payload.schema_version = some "quiz_mcq_v1" ∨ c1Payload.items.isSome)
    ∧ ∀ c, parseContentQuiz (some c1Payload) = .ok c →
        c.questions.length = (c1Payload.items.getD []).countP goodItemCode :=
  ⟨Or.inl rfl, (c1_quiz_item_filter c1Payload (Or.inl rfl)).2.1⟩

/-! ## Theorems: quiz round-trip (`parseContentResponse` then `loadQuizView`) -/

/-- Every question stored by a successful quiz parse has exactly 4 plain
(string) options and a resolved numeric correct answer. -/
theorem parseContentQuiz_questions_shape (p : RawQuizPayload) (c : QuizContent)
    (h : parseContentQuiz (some p) = .ok c) :
    ∀ q ∈ c.questions, q.options.length = 4 ∧ q.correctAnswer.isSome
      ∧ ∀ o ∈ q.options, ∃ s, o = QOption.plain s := by
  rw [parseContentQuiz] at h
  by_cases hacc : p.schema_version = some "quiz_mcq_v1" ∨ p.items.isSome
  · rw [if_pos hacc] at h
    by_cases hzero : (parsedQuizQuestions p).length = 0
    · rw [if_pos hzero] at h
      exact absurd h (by simp)
    · rw [if_neg hzero] at h
      have hq : c.questions = parsedQuizQuestions p := by
        rw [← Except.ok.inj h]
      intro q hqmem
      rw [hq, parsedQuizQuestions] at hqmem
      have hsurv := List.of_mem_filter hqmem
      have hmem := List.mem_of_mem_filter hqmem
      rw [List.mem_map] at hmem
      obtain ⟨iv, _, hiv⟩ := hmem
      rw [surviveQ] at hsurv
      simp only [Bool.and_eq_true, decide_eq_true_eq] at hsurv
      refine ⟨hsurv.1, ?_, ?_⟩
      · rcases hca : q.correctAnswer with _ | n
        · exact absurd (hca ▸ hsurv.2) (by simp)
        · rfl
      · intro o ho
        rw [← hiv] at ho
        simp only [parseQuizItem, List.mem_map] at ho
        obtain ⟨ro, _, hro⟩ := ho
        exact ⟨ro.text, hro.symm⟩
  · rw [if_neg hacc] at h
    exact absurd h (by simp)

/-- C8: re-deriving the in-session question list in `loadQuizView` from
content saved by the quiz parse returns exactly the parsed questions —
in particular the same option texts in the same order and the same correct
index for every question. -/
theorem c8_quiz_roundtrip (p : RawQuizPayload) (c : QuizContent)
    (h : parseContentQuiz (some p) = .ok c) :
    loadQuizQuestions c = c.questions := by
  have hshape := parseContentQuiz_questions_shape p c h
  rw [loadQuizQuestions]
  have hfilter : c.questions.filter (fun q =>
      q.options.length = 4 && (q.correctAnswer.isSome || q.options.any optIsCorrectTrue)) =
      c.questions := by
    rw [List.filter_eq_self]
    intro q hq
    obtain ⟨hlen, hsome, _⟩ := hshape q hq
    simp [hlen, hsome]
  rw [hfilter]
  have hmap : ∀ q ∈ c.questions,
      (match q.options.head? with
        | some (.record _ _ _) =>
            { q with
              text := jsOrStr q.text "",
              options := q.options.map (fun o => QOption.plain ((optText o).getD "")),
              correctAnswer := some (jsFindIndex optIsCorrect q.options),
              feedback := q.options.map optFeedback }
        | _ => q) = id q := by
    intro q hq
    obtain ⟨hlen, _, hplain⟩ := hshape q hq
    rcases hhead : q.options.head? with _ | o
    · rfl
    · obtain ⟨s, hs⟩ := hplain o (List.mem_of_mem_head? hhead)
      subst hs
      rfl
  rw [List.map_congr_left hmap, List.map_id]

/-- The valid quiz payload used to instantiate the round-trip theorem. -/
def c8Payload : RawQuizPayload :=
  { schema_version := some "quiz_mcq_v1", items := some [
    { id := none, stem := some "2+2?", text := none,
      options := some [⟨"3", some "no", some false⟩, ⟨"4", some "yes", some true⟩,
                       ⟨"5", some "no", some false⟩, ⟨"6", some "no", some false⟩],
      difficulty := none, citation_ids := none }] }

/-- The content the parse produces for `c8Payload`. -/
def c8Content : QuizContent :=
  { questions := [{ id := .num 1, text := "2+2?", qtype := "multiple_choice",
                    difficulty := "medium",
                    options := [.plain "3", .plain "4", .plain "5", .plain "6"],
                    correctAnswer := some 1, feedback := ["no", "yes", "no", "no"],
                    citation_ids := [] }],
    totalQuestions := 1, schema_version := "quiz_mcq_v1" }

/-- Concrete instance of `c8_quiz_roundtrip`: the parse of `c8Payload`
succeeds with `c8Content` and the session derivation reproduces it. -/
theorem c8_quiz_roundtrip_witness :
    parseContentQuiz (some c8Payload) = .ok c8Content
    ∧ loadQuizQuestions c8Content = c8Content.questions :=
  ⟨rfl, c8_quiz_roundtrip c8Payload c8Content rfl⟩

/-! ## Theorems: reading-content parsing -/

/-- Is a reading-parse outcome an error? -/
def readingIsError (r : Except String MdContent) : Bool :=
  match r with
  | .error _ => true
  | .ok _ => false

/-- The pasted response of the C9 counterexample: a fenced JSON block whose
interior `0` parses (so `extractJsonFromText` returns the number `0` in the
source), followed by heading markdown. -/
def c9Response : String := "```json\n0\n```\n# Title\nBody text"

/-- C9 counterexample: this input parses as JSON inside a fenced block
(`extractJsonFromText` yields the falsy number `0`), so the claim demands
an error; but `if (maybeJson)` only rejects truthy extractions, and the
parse succeeds with the `md_v1` wrapping of the whole trimmed response. -/
theorem c9_counterexample :
    Option.isSome (some (JVal.num 0)) = true
    ∧ parseContentReading (some (JVal.num 0)) c9Response =
        .ok { schema_version := "md_v1", markdown := jsTrim c9Response } := by
  constructor
  · rfl
  · rw [parseContentReading, if_neg (by decide), if_neg (by decide),
      if_neg (by rw [show hasHeading (jsTrim c9Response) = true by decide]; decide)]

/-- C9 (amended): for summary / explainer / practice / review inputs the
parse errors exactly when the JSON extraction is truthy (`null`, `false`,
`0` and `""` extractions fall through to the markdown path), or the input
is empty after trimming, or no line starts with `#`-run-plus-whitespace;
otherwise it returns the trimmed raw markdown wrapped as `md_v1`,
unmodified. -/
theorem c9_reading_markdown (mj : Option JVal) (response : String) :
    (readingIsError (parseContentReading mj response) = true ↔
      (jsTruthyOpt mj = true ∨ jsTrim response = "" ∨ hasHeading (jsTrim response) = false))
    ∧ (readingIsError (parseContentReading mj response) = false →
        parseContentReading mj response =
          .ok { schema_version := "md_v1", markdown := jsTrim response }) := by
  rw [parseContentReading]
  by_cases hj : jsTruthyOpt mj = true
  · rw [if_pos hj]
    exact ⟨⟨fun _ => Or.inl hj, fun _ => rfl⟩, fun h => absurd h (by simp [readingIsError])⟩
  · rw [if_neg hj]
    rw [Bool.not_eq_true] at hj
    by_cases hemp : jsTrim response = ""
    · rw [if_pos hemp]
      exact ⟨⟨fun _ => Or.inr (Or.inl hemp), fun _ => rfl⟩,
        fun h => absurd h (by simp [readingIsError])⟩
    · rw [if_neg hemp]
      by_cases hhead : hasHeading (jsTrim response) = true
      · rw [if_neg (by rw [hhead]; simp)]
        refine ⟨⟨fun h => absurd h (by simp [readingIsError]), ?_⟩, fun _ => rfl⟩
        intro h
        rcases h with h | h | h
        · rw [h] at hj; exact Bool.noConfusion hj
        · exact absurd h hemp
        · rw [hhead] at h; exact Bool.noConfusion h
      · rw [Bool.not_eq_true] at hhead
        rw [if_pos (by rw [hhead]; rfl)]
        exact ⟨⟨fun _ => Or.inr (Or.inr hhead), fun _ => rfl⟩,
          fun h => absurd h (by simp [readingIsError])⟩

/-- Concrete instance of `c9_reading_markdown`: a plain markdown input with
a heading, no JSON extraction; the success conjunct is applied with its
hypothesis discharged. -/
theorem c9_reading_markdown_witness :
    readingIsError (parseContentReading none "# Notes\nBody") = false
    ∧ parseContentReading none "# Notes\nBody" =
        .ok { schema_version := "md_v1", markdown := jsTrim "# Notes\nBody" } :=
  ⟨by decide, (c9_reading_markdown none "# Notes\nBody").2 (by decide)⟩

/-! ## Theorems: quiz finish (bestScore / completed invariants) -/

/-- One finished attempt sets `bestScore` to the maximum of the previous
best (defaulting to 0) and the attempt's percentage. -/
theorem finishQuiz_bestScore (slot : ContentSlot) (questions : List SQuestion)
    (answers : List (Option ℤ)) (t : ℤ) (d : String) :
    (finishQuiz slot questions answers t d).bestScore =
      some (max (slot.bestScore.getD 0) (attemptPercentage questions answers)) := rfl

/-- One finished attempt never lowers the recorded best score. -/
theorem finishQuiz_bestScore_le (slot : ContentSlot) (questions : List SQuestion)
    (answers : List (Option ℤ)) (t : ℤ) (d : String) :
    slot.bestScore.getD 0 ≤ (finishQuiz slot questions answers t d).bestScore.getD 0 := by
  rw [finishQuiz_bestScore]
  exact le_max_left _ _

/-- One finished attempt never clears the `completed` flag. -/
theorem finishQuiz_completed_mono (slot : ContentSlot) (questions : List SQuestion)
    (answers : List (Option ℤ)) (t : ℤ) (d : String) (h : slot.completed = true) :
    (finishQuiz slot questions answers t d).completed = true := by
  rw [finishQuiz]
  by_cases hb : quizMasteryThreshold ≤ max (slot.bestScore.getD 0) (attemptPercentage questions answers)
  · simp [hb]
  · simp [hb, h]

/-- C2: across any sequence of finished attempts, each finish sets
`bestScore = max(previous best, percentage)`, the best score is
monotonically non-decreasing, a finish whose resulting best score meets the
70% mastery threshold marks the slot completed, and a completed slot stays
completed under every later finish (in particular lower-scoring retakes). -/
theorem c2_best_score_completed :
    (∀ (slot : ContentSlot) (questions : List SQuestion) (answers : List (Option ℤ))
        (t : ℤ) (d : String),
      (finishQuiz slot questions answers t d).bestScore =
        some (max (slot.bestScore.getD 0) (attemptPercentage questions answers)))
    ∧ (∀ (slot : ContentSlot) (runs : List (List SQuestion × List (Option ℤ) × ℤ × String)),
        slot.bestScore.getD 0 ≤ (finishMany slot runs).bestScore.getD 0)
    ∧ (∀ (slot : ContentSlot) (questions : List SQuestion) (answers : List (Option ℤ))
        (t : ℤ) (d : String),
        quizMasteryThreshold ≤ (finishQuiz slot questions answers t d).bestScore.getD 0 →
          (finishQuiz slot questions answers t d).completed = true)
    ∧ (∀ (slot : ContentSlot) (runs : List (List SQuestion × List (Option ℤ) × ℤ × String)),
        slot.completed = true → (finishMany slot runs).completed = true) := by
  refine ⟨finishQuiz_bestScore, ?_, ?_, ?_⟩
  · intro slot runs
    induction runs generalizing slot with
    | nil => exact le_refl _
    | cons r rest ih =>
        exact le_trans (finishQuiz_bestScore_le slot r.1 r.2.1 r.2.2.1 r.2.2.2)
          (ih (finishQuiz slot r.1 r.2.1 r.2.2.1 r.2.2.2))
  · intro slot questions answers t d h
    rw [finishQuiz_bestScore] at h
    rw [finishQuiz]
    simp only [Option.getD_some] at h
    simp [h]
  · intro slot runs
    induction runs generalizing slot with
    | nil => exact fun h => h
    | cons r rest ih =>
        intro h
        exact ih _ (finishQuiz_completed_mono slot r.1 r.2.1 r.2.2.1 r.2.2.2 h)

/-- Concrete instance of `c2_best_score_completed`: a perfect one-question
attempt on a fresh quiz slot reaches best score 100 ≥ 70 and marks the slot
completed; a later all-wrong attempt leaves it completed. -/
theorem c2_best_score_completed_witness :
    quizMasteryThreshold ≤
      (finishQuiz (createEmptyContentSlots.quiz) [⟨"2+2?", ["3", "4", "5", "6"], 1⟩]
        [some 1] 5 "d1").bestScore.getD 0
    ∧ (finishQuiz (createEmptyContentSlots.quiz) [⟨"2+2?", ["3", "4", "5", "6"], 1⟩]
        [some 1] 5 "d1").completed = true
    ∧ (finishMany (finishQuiz (createEmptyContentSlots.quiz) [⟨"2+2?", ["3", "4", "5", "6"], 1⟩]
        [some 1] 5 "d1") [([⟨"2+2?", ["3", "4", "5", "6"], 1⟩], [some 0], 9, "d2")]).completed
        = true := by
  have h70 : quizMasteryThreshold ≤
      (finishQuiz (createEmptyContentSlots.quiz) [⟨"2+2?", ["3", "4", "5", "6"], 1⟩]
        [some 1] 5 "d1").bestScore.getD 0 := by
    rw [finishQuiz_bestScore]
    have hpct : attemptPercentage [⟨"2+2?", ["3", "4", "5", "6"], 1⟩] [some 1] = 100 := by
      rw [attemptPercentage,
        show quizScore [⟨"2+2?", ["3", "4", "5", "6"], 1⟩] [some 1] = 1 from by decide]
      norm_num [round_eq]
    rw [hpct]
    show quizMasteryThreshold ≤ max ((createEmptyContentSlots.quiz.bestScore).getD 0) 100
    norm_num [createEmptyContentSlots, emptyPlainSlot, quizMasteryThreshold]
  have hc := c2_best_score_completed.2.2.1 (createEmptyContentSlots.quiz)
    [⟨"2+2?", ["3", "4", "5", "6"], 1⟩] [some 1] 5 "d1" h70
  exact ⟨h70, hc,
    c2_best_score_completed.2.2.2 _ [([⟨"2+2?", ["3", "4", "5", "6"], 1⟩], [some 0], 9, "d2")] hc⟩

/-! ## Theorems: saveContent frame conditions -/

/-- C10: re-saving content over an existing slot overwrites only
`status`, `content`, `rawResponse` and `lastUpdated`; the `completed` flag
is preserved for every type, a quiz slot keeps an existing `attempts`
array and finite `bestScore`, a flashcards slot keeps an existing `srs`
map, and slots of other types keep those fields verbatim — so re-saving
never resets mastery, attempt history, or SRS scheduling state. -/
theorem c10_save_content_frame (prev : ContentSlot) (parsed : Payload)
    (response now : String) (type : CType) :
    (saveContentSlot prev parsed response now type).status = .filled
    ∧ (saveContentSlot prev parsed response now type).content = some parsed
    ∧ (saveContentSlot prev parsed response now type).rawResponse = some response
    ∧ (saveContentSlot prev parsed response now type).lastUpdated = some now
    ∧ (saveContentSlot prev parsed response now type).completed = prev.completed
    ∧ (∀ a, prev.attempts = some a →
        (saveContentSlot prev parsed response now type).attempts = some a)
    ∧ (∀ b, prev.bestScore = some b →
        (saveContentSlot prev parsed response now type).bestScore = some b)
    ∧ (∀ m, prev.srs = some m →
        (saveContentSlot prev parsed response now type).srs = some m)
    ∧ (type ≠ .quiz →
        (saveContentSlot prev parsed response now type).attempts = prev.attempts
        ∧ (saveContentSlot prev parsed response now type).bestScore = prev.bestScore)
    ∧ (type ≠ .flashcards →
        (saveContentSlot prev parsed response now type).srs = prev.srs) := by
  cases type <;>
    refine ⟨rfl, rfl, rfl, rfl, rfl, ?_, ?_, ?_, ?_, ?_⟩ <;>
    first
      | (intro x hx; simp [saveContentSlot, hx])
      | (intro hx; first | (exact absurd rfl hx) | simp [saveContentSlot])

/-- A quiz slot with existing history, used to instantiate the frame
theorem: one attempt recorded, best score 80, marked completed. -/
def c10PrevSlot : ContentSlot :=
  { emptyPlainSlot with attempts := some [], bestScore := some 80, completed := true }

/-- The re-saved payload used to instantiate the frame theorem. -/
def c10Payload : Payload := .md { schema_version := "md_v1", markdown := "# x" }

/-- Concrete instance of `c10_save_content_frame`: a quiz slot with an
existing best score keeps it across a re-save. -/
theorem c10_save_content_frame_witness :
    c10PrevSlot.bestScore = some 80
    ∧ (saveContentSlot c10PrevSlot c10Payload "# x" "2026-01-01" .quiz).bestScore = some 80 :=
  ⟨rfl, (c10_save_content_frame c10PrevSlot c10Payload "# x" "2026-01-01" .quiz).2.2.2.2.2.2.1
    80 rfl⟩

/-! ## Theorems: structure parsing -/

/-- The per-topic data C6 talks about: name, difficulty, category and the
content-slot record (subtopics and the nondeterministic id aside). -/
def topicCore (t : Topic) : String × String × String × ContentSlots :=
  (t.name, t.difficulty, t.category, t.contentSlots)

/-- Applying `updateLast` with a subtopics-only update leaves every topic's core
data unchanged. -/
theorem updateLast_map_topicCore (f : Topic → Topic)
    (hf : ∀ t, topicCore (f t) = topicCore t) :
    ∀ ts : List Topic, (updateLast f ts).map topicCore = ts.map topicCore := by
  intro ts
  induction ts with
  | nil => rfl
  | cons t rest ih =>
      cases rest with
      | nil => simpa [updateLast] using hf t
      | cons u rest2 => simpa [updateLast] using ih

/-- A successful marker match implies the marker substring is present. -/
theorem matchMarker_includes (pat : List Char) (line : String) (name : String)
    (h : matchMarker pat line = some name) :
    (dropAfterFirst pat line.data).isSome = true := by
  rw [matchMarker] at h
  rcases hd : dropAfterFirst pat line.data with _ | rest
  · rw [hd] at h
    exact Option.noConfusion h
  · rfl

/-- A scan step on a line whose (trimmed form's) topic marker does not
match keeps the topic cores and the open flag unchanged (only the open
topic's subtopics may change). -/
theorem structStep_none (acc : List Topic × Bool) (raw : String)
    (h : matchMarker topicStartPat (jsTrim raw) = none) :
    (structStep acc raw).1.map topicCore = acc.1.map topicCore
    ∧ (structStep acc raw).2 = acc.2 := by
  rw [structStep]
  have hacc1 :
      (if (dropAfterFirst topicStartPat (jsTrim raw).data).isSome = true then
        (match matchMarker topicStartPat (jsTrim raw) with
          | some name => (acc.1 ++ [mkTopic name (jsTrim raw)], true)
          | none => acc)
      else acc) = acc := by
    rw [h]
    exact ite_self acc
  rw [hacc1]
  by_cases hsub : (acc.2 && (dropAfterFirst subtopicPat (jsTrim raw).data).isSome) = true
  · rw [if_pos hsub]
    rcases hm : matchMarker subtopicPat (jsTrim raw) with _ | sname
    · exact ⟨rfl, rfl⟩
    · exact ⟨updateLast_map_topicCore
        (fun t => { t with subtopics := t.subtopics ++ [mkSubtopic sname (jsTrim raw)] })
        (fun t => rfl) acc.1, rfl⟩
  · rw [if_neg hsub]
    exact ⟨rfl, rfl⟩

/-- A scan step on a line whose trimmed form matches the topic marker
appends exactly one topic (built from the captured name and the line's
annotations) and leaves a topic open. -/
theorem structStep_some (acc : List Topic × Bool) (raw : String) (name : String)
    (h : matchMarker topicStartPat (jsTrim raw) = some name) :
    (structStep acc raw).1.map topicCore =
      acc.1.map topicCore ++ [topicCore (mkTopic name (jsTrim raw))]
    ∧ (structStep acc raw).2 = true := by
  rw [structStep]
  have hacc1 :
      (if (dropAfterFirst topicStartPat (jsTrim raw).data).isSome = true then
        (match matchMarker topicStartPat (jsTrim raw) with
          | some name => (acc.1 ++ [mkTopic name (jsTrim raw)], true)
          | none => acc)
      else acc) = (acc.1 ++ [mkTopic name (jsTrim raw)], true) := by
    rw [if_pos (matchMarker_includes _ _ _ h), h]
  rw [hacc1]
  by_cases hsub : (true && (dropAfterFirst subtopicPat (jsTrim raw).data).isSome) = true
  · rw [if_pos hsub]
    rcases hm : matchMarker subtopicPat (jsTrim raw) with _ | sname
    · exact ⟨by rw [List.map_append]; rfl, rfl⟩
    · refine ⟨?_, rfl⟩
      have hup := updateLast_map_topicCore
        (fun t => { t with subtopics := t.subtopics ++ [mkSubtopic sname (jsTrim raw)] })
        (fun t => rfl) (acc.1 ++ [mkTopic name (jsTrim raw)])
      refine Eq.trans hup ?_
      rw [List.map_append]
      rfl
  · rw [if_neg hsub]
    exact ⟨by rw [List.map_append]; rfl, rfl⟩

/-- Folding the scan over lines none of which match the topic marker keeps
the topic cores and the open flag. -/
theorem structFold_none (lines : List String)
    (h : ∀ l ∈ lines, matchMarker topicStartPat (jsTrim l) = none) :
    ∀ acc : List Topic × Bool,
      (lines.foldl structStep acc).1.map topicCore = acc.1.map topicCore
      ∧ (lines.foldl structStep acc).2 = acc.2 := by
  induction lines with
  | nil => exact fun acc => ⟨rfl, rfl⟩
  | cons l rest ih =>
      intro acc
      have hl := h l (List.mem_cons_self l rest)
      have hrest := ih (fun x hx => h x (List.mem_cons_of_mem l hx))
      have hstep := structStep_none acc l hl
      rw [List.foldl_cons]
      refine ⟨?_, ?_⟩
      · rw [(hrest (structStep acc l)).1, hstep.1]
      · rw [(hrest (structStep acc l)).2, hstep.2]

/-- C6: an input whose lines contain exactly two matching `TOPIC_START:`
marker lines (and arbitrary other non-marker lines) parses to exactly two
topics in marker order; each topic carries the captured name, the defaults
`difficulty = "Medium"` and `category = "General"` when the marker line has
no `DIFFICULTY`/`CATEGORY` annotation, and the six freshly created content
slots; and every one of the six slots starts with status `empty` and
`completed = false`. -/
theorem c6_two_topic_markers (pre mid post : List String) (l1 l2 n1 n2 : String)
    (h1 : matchMarker topicStartPat (jsTrim l1) = some n1)
    (h2 : matchMarker topicStartPat (jsTrim l2) = some n2)
    (hpre : ∀ l ∈ pre, matchMarker topicStartPat (jsTrim l) = none)
    (hmid : ∀ l ∈ mid, matchMarker topicStartPat (jsTrim l) = none)
    (hpost : ∀ l ∈ post, matchMarker topicStartPat (jsTrim l) = none)
    (hd1 : extractValue (jsTrim l1) "DIFFICULTY" = none)
    (hc1 : extractValue (jsTrim l1) "CATEGORY" = none)
    (hd2 : extractValue (jsTrim l2) "DIFFICULTY" = none)
    (hc2 : extractValue (jsTrim l2) "CATEGORY" = none) :
    (parseStructureLines (pre ++ [l1] ++ mid ++ [l2] ++ post)).map topicCore =
      [(n1, "Medium", "General", createEmptyContentSlots),
       (n2, "Medium", "General", createEmptyContentSlots)]
    ∧ ∀ p ∈ slotsList createEmptyContentSlots, p.2.status = .empty ∧ p.2.completed = false := by
  have hcore1 : topicCore (mkTopic n1 (jsTrim l1)) =
      (n1, "Medium", "General", createEmptyContentSlots) := by
    rw [topicCore, mkTopic]
    rw [hd1, hc1]
    rfl
  have hcore2 : topicCore (mkTopic n2 (jsTrim l2)) =
      (n2, "Medium", "General", createEmptyContentSlots) := by
    rw [topicCore, mkTopic]
    rw [hd2, hc2]
    rfl
  have hfold :
      (((pre ++ [l1] ++ mid ++ [l2] ++ post).foldl structStep ([], false)).1).map topicCore =
        [(n1, "Medium", "General", createEmptyContentSlots),
         (n2, "Medium", "General", createEmptyContentSlots)] := by
    rw [List.foldl_append, List.foldl_append, List.foldl_append, List.foldl_append]
    have s1 := structFold_none pre hpre ([], false)
    set a1 := pre.foldl structStep ([], false) with ha1
    have s2 := structStep_some a1 l1 n1 h1
    rw [List.foldl_cons, List.foldl_nil]
    set a2 := structStep a1 l1 with ha2
    have s3 := structFold_none mid hmid a2
    set a3 := mid.foldl structStep a2 with ha3
    have s4 := structStep_some a3 l2 n2 h2
    rw [List.foldl_cons, List.foldl_nil]
    set a4 := structStep a3 l2 with ha4
    have s5 := structFold_none post hpost a4
    rw [s5.1, s4.1, s3.1, s2.1, s1.1]
    rw [hcore1, hcore2]
    rfl
  constructor
  · rw [parseStructureLines]
    have hne : ((pre ++ [l1] ++ mid ++ [l2] ++ post).foldl structStep ([], false)).1 ≠ [] := by
      intro hnil
      rw [hnil] at hfold
      exact List.noConfusion hfold
    rw [if_neg hne]
    exact hfold
  · intro p hp
    fin_cases hp <;> exact ⟨rfl, rfl⟩

/-- Concrete instance of `c6_two_topic_markers`: two bare marker lines with
names and no annotations. -/
theorem c6_two_topic_markers_witness :
    matchMarker topicStartPat (jsTrim "TOPIC_START: Algebra") = some "Algebra"
    ∧ (parseStructureLines
        ([] ++ ["TOPIC_START: Algebra"] ++ [] ++ ["TOPIC_START: Geometry"] ++ [])).map topicCore =
      [("Algebra", "Medium", "General", createEmptyContentSlots),
       ("Geometry", "Medium", "General", createEmptyContentSlots)] :=
  ⟨by decide,
    (c6_two_topic_markers [] [] [] "TOPIC_START: Algebra" "TOPIC_START: Geometry"
      "Algebra" "Geometry" (by decide) (by decide)
      (by intro l hl; exact absurd hl (List.not_mem_nil l))
      (by intro l hl; exact absurd hl (List.not_mem_nil l))
      (by intro l hl; exact absurd hl (List.not_mem_nil l))
      (by decide) (by decide) (by decide) (by decide)).1⟩

/-! ## Theorems: study queue -/

/-- Counting with `countP` distributes over `flatMap` as a sum of per-element counts. -/
theorem countP_flatMap (f : α → List β) (p : β → Bool) (l : List α) :
    (l.flatMap f).countP p = (l.map (fun x => (f x).countP p)).sum := by
  induction l with
  | nil => rfl
  | cons x xs ih =>
      rw [List.flatMap_cons, List.countP_append, List.map_cons, List.sum_cons, ih]

/-- The number of empty slots across the whole course tree. -/
def countEmptySlots (courses : List Course) : ℕ :=
  ((courses.flatMap Course.topics).map
    (fun t => (slotsList t.contentSlots).countP (fun ts => ts.2.status = .empty))).sum

/-- The number of topics with a filled, not-completed flashcards slot. -/
def countReviewTopics (courses : List Course) : ℕ :=
  ((courses.flatMap Course.topics).filter reviewEligible).length

/-- The empty-slot items of one topic count one per empty slot, and none of
them has priority 1. -/
theorem countP_slotItems (name : String) (slots : List (CType × ContentSlot)) :
    ((slots.filterMap (fun ts =>
        if ts.2.status = .empty then some (mkEmptyItem name ts.1) else none)).countP
      (fun it => it.priority = 2) = slots.countP (fun ts => ts.2.status = .empty))
    ∧ ((slots.filterMap (fun ts =>
        if ts.2.status = .empty then some (mkEmptyItem name ts.1) else none)).countP
      (fun it => it.priority = 1) = 0) := by
  induction slots with
  | nil => exact ⟨rfl, rfl⟩
  | cons ts rest ih =>
      by_cases h : ts.2.status = .empty
      · constructor
        · rw [List.filterMap_cons, if_pos h, List.countP_cons, ih.1, List.countP_cons]
          simp [mkEmptyItem, h]
        · rw [List.filterMap_cons, if_pos h, List.countP_cons, ih.2]
          simp [mkEmptyItem]
      · constructor
        · rw [List.filterMap_cons, if_neg h, ih.1, List.countP_cons]
          simp [h]
        · rw [List.filterMap_cons, if_neg h, ih.2]

/-- Per-topic item counts: one priority-2 item per empty slot, one
priority-1 item exactly when the flashcards slot is review-eligible. -/
theorem countP_topicItems (topic : Topic) :
    ((topicItems topic).countP (fun it => it.priority = 2) =
      (slotsList topic.contentSlots).countP (fun ts => ts.2.status = .empty))
    ∧ ((topicItems topic).countP (fun it => it.priority = 1) =
      if reviewEligible topic then 1 else 0) := by
  rw [topicItems]
  constructor
  · rw [List.countP_append, (countP_slotItems topic.name _).1]
    by_cases h : reviewEligible topic
    · rw [if_pos h]
      simp [reviewItem]
    · rw [if_neg h]
      rfl
  · rw [List.countP_append, (countP_slotItems topic.name _).2]
    by_cases h : reviewEligible topic
    · rw [if_pos h, if_pos h]
      simp [reviewItem]
    · rw [if_neg h, if_neg h]
      rfl

/-- Sums over `flatMap` flatten to nested sums. -/
theorem sum_map_flatMap (f : α → List β) (g : β → ℕ) (l : List α) :
    ((l.flatMap f).map g).sum = (l.map (fun x => ((f x).map g).sum)).sum := by
  induction l with
  | nil => rfl
  | cons x xs ih =>
      rw [List.flatMap_cons, List.map_append, List.sum_append, List.map_cons, List.sum_cons, ih]

/-- Filtered lengths over `flatMap` flatten the same way. -/
theorem length_filter_flatMap (f : α → List β) (p : β → Bool) (l : List α) :
    ((l.flatMap f).filter p).length = (l.map (fun x => ((f x).filter p).length)).sum := by
  induction l with
  | nil => rfl
  | cons x xs ih =>
      rw [List.flatMap_cons, List.filter_append, List.length_append, List.map_cons,
        List.sum_cons, ih]

/-- A filtered length is the sum of per-element indicator values. -/
theorem length_filter_eq_sum (p : α → Bool) (l : List α) :
    (l.filter p).length = (l.map (fun x => if p x then 1 else 0)).sum := by
  induction l with
  | nil => rfl
  | cons x xs ih =>
      rw [List.filter_cons, List.map_cons, List.sum_cons, ← ih]
      by_cases h : p x
      · rw [if_pos h, if_pos h, List.length_cons]
        omega
      · rw [if_neg h, if_neg h]
        omega

/-- The candidate list counts one priority-2 item per empty slot and one
priority-1 item per review-eligible flashcards slot, across all courses. -/
theorem buildStudyItems_counts (courses : List Course) :
    (buildStudyItems courses).countP (fun it => it.priority = 2) = countEmptySlots courses
    ∧ (buildStudyItems courses).countP (fun it => it.priority = 1) = countReviewTopics courses := by
  constructor
  · rw [buildStudyItems, countP_flatMap, countEmptySlots, sum_map_flatMap]
    congr 1
    refine List.map_congr_left ?_
    intro course _
    rw [countP_flatMap]
    congr 1
    refine List.map_congr_left ?_
    intro topic _
    exact (countP_topicItems topic).1
  · rw [buildStudyItems, countP_flatMap, countReviewTopics, length_filter_flatMap]
    congr 1
    refine List.map_congr_left ?_
    intro course _
    rw [countP_flatMap, length_filter_eq_sum]
    congr 1
    refine List.map_congr_left ?_
    intro topic _
    exact (countP_topicItems topic).2

/-- C7 (amended): for every label order `labelLe` that is a total preorder
— which the host's `localeCompare` collation is — the study queue (1) is
the explicit "nothing to do" outcome exactly when there are no candidate
items; (2) otherwise it is sorted by priority ascending then label
ascending in that collation order, holds at most 8 items (exactly
`min 8 candidates`), and contains only candidate items; (3) the candidates
comprise one priority-2 item per empty slot and one priority-1 item per
filled, not-completed flashcards slot; and (4) for one course with one
topic having five empty slots and a filled, not-completed flashcards slot,
the queue has exactly 6 items with the flashcards review item first and
five priority-2 items after it. -/
theorem c7_study_queue (labelLe : String → String → Prop) [DecidableRel labelLe]
    (htotal : ∀ a b, labelLe a b ∨ labelLe b a)
    (htrans : ∀ a b c, labelLe a b → labelLe b c → labelLe a c) :
    (∀ courses : List Course,
      loadStudyView labelLe courses = .nothingToDo ↔ buildStudyItems courses = [])
    ∧ (∀ (courses : List Course) (l : List StudyItem),
        loadStudyView labelLe courses = .queue l →
          l.length = min 8 (buildStudyItems courses).length
          ∧ List.Sorted (itemRelWith labelLe) l
          ∧ ∀ it ∈ l, it ∈ buildStudyItems courses)
    ∧ (∀ courses : List Course,
        (buildStudyItems courses).countP (fun it => it.priority = 2) = countEmptySlots courses
        ∧ (buildStudyItems courses).countP (fun it => it.priority = 1) =
          countReviewTopics courses)
    ∧ (∀ (course : Course) (topic : Topic),
        course.topics = [topic] →
        topic.contentSlots.summary.status = .empty →
        topic.contentSlots.quiz.status = .empty →
        topic.contentSlots.explainer.status = .empty →
        topic.contentSlots.practice.status = .empty →
        topic.contentSlots.review.status = .empty →
        topic.contentSlots.flashcards.status = .filled →
        topic.contentSlots.flashcards.completed = false →
        ∃ rest, loadStudyView labelLe [course] = .queue (reviewItem topic.name :: rest)
          ∧ rest.length = 5 ∧ ∀ it ∈ rest, it.priority = 2) := by
  haveI : IsTotal StudyItem (itemRelWith labelLe) := ⟨itemRelWith_total labelLe htotal⟩
  haveI : IsTrans StudyItem (itemRelWith labelLe) := ⟨itemRelWith_trans labelLe htrans⟩
  refine ⟨?_, ?_, buildStudyItems_counts, ?_⟩
  · intro courses
    rw [loadStudyView]
    by_cases h : buildStudyItems courses = []
    · rw [if_pos h]
      exact ⟨fun _ => h, fun _ => rfl⟩
    · rw [if_neg h]
      exact ⟨fun hq => StudyResult.noConfusion hq, fun hnil => absurd hnil h⟩
  · intro courses l hl
    rw [loadStudyView] at hl
    by_cases h : buildStudyItems courses = []
    · rw [if_pos h] at hl
      exact absurd hl (fun hq => StudyResult.noConfusion hq)
    · rw [if_neg h] at hl
      have hleq :
          l = (List.insertionSort (itemRelWith labelLe) (buildStudyItems courses)).take 8 :=
        (StudyResult.queue.inj hl).symm
      have hperm := List.perm_insertionSort (itemRelWith labelLe) (buildStudyItems courses)
      refine ⟨?_, ?_, ?_⟩
      · rw [hleq, List.length_take, hperm.length_eq]
      · rw [hleq]
        exact List.Pairwise.sublist (List.take_sublist _ _)
          (List.sorted_insertionSort (itemRelWith labelLe) (buildStudyItems courses))
      · intro it hit
        rw [hleq] at hit
        exact hperm.mem_iff.mp (List.Sublist.mem hit (List.take_sublist _ _))
  · intro course topic htop hsum hquiz hexp hpra hrev hfl hflc
    have hitems : buildStudyItems [course] =
        [mkEmptyItem topic.name .summary, mkEmptyItem topic.name .quiz,
         mkEmptyItem topic.name .explainer, mkEmptyItem topic.name .practice,
         mkEmptyItem topic.name .review, reviewItem topic.name] := by
      rw [buildStudyItems, List.flatMap_cons, List.flatMap_nil, List.append_nil, htop,
        List.flatMap_cons, List.flatMap_nil, List.append_nil, topicItems, slotsList]
      rw [show reviewEligible topic = true by rw [reviewEligible, hfl, hflc]; rfl]
      simp only [List.filterMap_cons, List.filterMap_nil, hsum, hquiz, hexp, hpra, hrev, hfl]
      rfl
    have hne : buildStudyItems [course] ≠ [] := by
      rw [hitems]
      exact List.noConfusion
    obtain ⟨ld, hldef⟩ :
        ∃ ld, List.insertionSort (itemRelWith labelLe) (buildStudyItems [course]) = ld :=
      ⟨_, rfl⟩
    have hperm : ld.Perm (buildStudyItems [course]) :=
      hldef ▸ List.perm_insertionSort (itemRelWith labelLe) (buildStudyItems [course])
    have hsorted : List.Sorted (itemRelWith labelLe) ld :=
      hldef ▸ List.sorted_insertionSort (itemRelWith labelLe) (buildStudyItems [course])
    have hlen : ld.length = 6 := by
      rw [hperm.length_eq, hitems]
      rfl
    have hmemitems : ∀ it ∈ ld, it = reviewItem topic.name ∨ it.priority = 2 := by
      intro it hit
      have hm := hperm.mem_iff.mp hit
      rw [hitems] at hm
      simp only [List.mem_cons, List.not_mem_nil, or_false] at hm
      rcases hm with h | h | h | h | h | h
      · exact Or.inr (by rw [h]; rfl)
      · exact Or.inr (by rw [h]; rfl)
      · exact Or.inr (by rw [h]; rfl)
      · exact Or.inr (by rw [h]; rfl)
      · exact Or.inr (by rw [h]; rfl)
      · exact Or.inl h
    have hrevmem : reviewItem topic.name ∈ ld := by
      rw [hperm.mem_iff, hitems]
      simp
    have hcount1 : ld.countP (fun it => it.priority = 1) = 1 := by
      rw [hperm.countP_eq, hitems]
      simp [List.countP_cons, mkEmptyItem, reviewItem]
    obtain ⟨hd, tl, hld⟩ : ∃ hd tl, ld = hd :: tl := by
      cases ld with
      | nil => exact absurd hlen (by simp)
      | cons hd tl => exact ⟨hd, tl, rfl⟩
    have hlen5 : tl.length = 5 := by
      rw [hld] at hlen
      simpa using hlen
    have hhd : hd = reviewItem topic.name := by
      rcases hmemitems hd (by rw [hld]; exact List.mem_cons_self hd tl) with h | h
      · exact h
      · exfalso
        have hrevtl : reviewItem topic.name ∈ tl := by
          have hm := hrevmem
          rw [hld] at hm
          rcases List.mem_cons.mp hm with heq | htl
          · rw [← heq] at h
            exact absurd h (by simp [reviewItem])
          · exact htl
        have hrel : itemRelWith labelLe hd (reviewItem topic.name) := by
          have hs := hsorted
          rw [hld] at hs
          exact (List.sorted_cons.mp hs).1 _ hrevtl
        rcases hrel with hlt | ⟨heq, _⟩
        · rw [h] at hlt
          simp [reviewItem] at hlt
        · rw [h] at heq
          simp [reviewItem] at heq
    have htl0 : tl.countP (fun it => it.priority = 1) = 0 := by
      have hc := hcount1
      rw [hld, List.countP_cons, hhd] at hc
      have hone : (if decide ((reviewItem topic.name).priority = 1) = true then 1 else 0) = 1 := by
        simp [reviewItem]
      omega
    refine ⟨tl, ?_, hlen5, ?_⟩
    · rw [loadStudyView, if_neg hne, hldef, hld, hhd]
      have : (reviewItem topic.name :: tl).take 8 = reviewItem topic.name :: tl :=
        List.take_of_length_le (by simp [hlen5])
      rw [this]
    · intro it hit
      rcases hmemitems it (by rw [hld]; exact List.mem_cons_of_mem hd hit) with h | h
      · exfalso
        have hz := List.countP_eq_zero.mp htl0 it hit
        rw [h] at hz
        exact hz (by simp [reviewItem])
      · exact h

/-- The course used to instantiate the study-queue scenario. -/
def c7Topic : Topic :=
  { id := "t1", name := "Algebra", difficulty := "Medium", category := "General",
    subtopics := [],
    contentSlots := { createEmptyContentSlots with
      flashcards := { emptyPlainSlot with status := .filled, srs := some [] } } }

/-- The single-topic course of the scenario. -/
def c7Course : Course := { id := "c1", name := "Math", topics := [c7Topic] }

/-- Lowercasing used to model the case-insensitive primary strength of the
default ICU collation behind `localeCompare`. -/
def lowerStr (s : String) : String :=
  String.mk (s.data.map Char.toLower)

/-- Model of the browser label order `a.localeCompare(b) <= 0`: the default
ICU root collation compares letters case-insensitively at primary strength,
so it orders "apple..." before "Binary..." — the opposite of code-point
order.  On the labels it is applied to below (which differ at their first
letter) this coincides with code-point comparison of the lowercased
strings, which this relation implements. -/
def ciCollationLe (a b : String) : Prop :=
  lowerStr a ≤ lowerStr b

instance : DecidableRel ciCollationLe := fun a b =>
  decidable_of_iff ((lowerStr a).toList ≤ (lowerStr b).toList) String.le_iff_toList_le.symm

/-- The slot record of the C7 counterexample topics: only the summary slot
is empty, and the flashcards slot is filled but completed (so each topic
contributes exactly one priority-2 item and no review item). -/
def c7CexSlots : ContentSlots :=
  { summary := emptyPlainSlot
    flashcards := { emptyPlainSlot with status := .filled, completed := true, srs := some [] }
    quiz := { emptyPlainSlot with status := .filled, attempts := some [], bestScore := some 0 }
    explainer := { emptyPlainSlot with status := .filled }
    practice := { emptyPlainSlot with status := .filled }
    review := { emptyPlainSlot with status := .filled } }

/-- The C7 counterexample course: two topics with mixed-case names, listed
as ["Binary trees", "apple basics"]. -/
def c7CexCourse : Course :=
  { id := "c2"
    name := "Fruit CS"
    topics :=
      [{ id := "tB", name := "Binary trees", difficulty := "Medium", category := "General",
         subtopics := [], contentSlots := c7CexSlots },
       { id := "ta", name := "apple basics", difficulty := "Medium", category := "General",
         subtopics := [], contentSlots := c7CexSlots }] }

/-- C7 counterexample: under the locale collation order of the program's
`localeCompare` tie-break, the two empty-slot items sort as
["apple basics • Summary", "Binary trees • Summary"] — and that queue is
not in lexicographic (code-point) label order, since "B" precedes "a" in
code points.  The claimed "label lexicographic ascending" therefore fails
on the program's reachable mixed-case topic names. -/
theorem c7_counterexample :
    loadStudyView ciCollationLe [c7CexCourse] =
      .queue [mkEmptyItem "apple basics" .summary, mkEmptyItem "Binary trees" .summary]
    ∧ ¬ ((mkEmptyItem "apple basics" .summary).label ≤
          (mkEmptyItem "Binary trees" .summary).label) := by
  constructor
  · decide
  · rw [String.le_iff_toList_le]
    decide

/-- Concrete instance of `c7_study_queue`: instantiated at the modelled
locale collation (its totality and transitivity discharged explicitly),
the scenario course yields a 6-item queue headed by the flashcards review
item. -/
theorem c7_study_queue_witness :
    ∃ rest, loadStudyView ciCollationLe [c7Course] = .queue (reviewItem c7Topic.name :: rest)
      ∧ rest.length = 5 ∧ ∀ it ∈ rest, it.priority = 2 :=
  (c7_study_queue ciCollationLe (fun a b => le_total (lowerStr a) (lowerStr b))
    (fun _ _ _ hab hbc => le_trans hab hbc)).2.2.2 c7Course c7Topic
    rfl rfl rfl rfl rfl rfl rfl rfl

end StudyBuddy
